import Mathlib

/-!
# Verification of the weighted-blended OIT renderer (lab_project_00)

A shallow embedding, over exact real arithmetic, of the math and resource
logic of the renderer:

* the `glam` vector / quaternion / matrix operations used by
  `src/interfaces.rs`, `src/camera.rs` and `src/objects.rs`
  (`Vec3`, `Vec4`, `Quat`, `Mat3`, `Mat4` below);
* the `GameObject` / `GameCameraObject` trait operations of
  `src/interfaces.rs`, modelled as functions on the world transform;
* the `PerspectiveCameraBuilder` (`src/camera.rs`) and
  `ColordObjectBuilder` (`src/objects.rs`) configuration values;
* the transparent pipeline descriptor of `src/pipeline.rs`
  (`create_transparent_pipeline`) and the blend-equation semantics;
* the resize branch of the render loop of `src/main.rs`, modelled as a
  state transition that also emits the ordered trace of device actions.

Machine floats (`f32`) are modelled by `ℝ`; every property proved here is
exact over `ℝ`, which is the idealisation of the code's
"within floating-point tolerance" statements.  Division by zero follows
Lean's `x / 0 = 0` convention where glam would produce `NaN`
(`Quat::normalize` of the zero quaternion); all theorems below either
avoid that corner or handle it explicitly.
-/

noncomputable section

namespace OIT

/-! ## glam vectors -/

/-- `glam::Vec3`, with `f32` modelled by `ℝ`. -/
structure Vec3 where
  x : ℝ
  y : ℝ
  z : ℝ

/-- `glam::Vec4`. -/
structure Vec4 where
  x : ℝ
  y : ℝ
  z : ℝ
  w : ℝ

/-- `glam::Quat` (x, y, z imaginary parts, w real part). -/
structure Quat where
  x : ℝ
  y : ℝ
  z : ℝ
  w : ℝ

instance : Add Vec3 := ⟨fun u v => ⟨u.x + v.x, u.y + v.y, u.z + v.z⟩⟩

instance : Sub Vec3 := ⟨fun u v => ⟨u.x - v.x, u.y - v.y, u.z - v.z⟩⟩

instance : Neg Vec3 := ⟨fun v => ⟨-v.x, -v.y, -v.z⟩⟩

instance : Zero Vec3 := ⟨⟨0, 0, 0⟩⟩

instance : SMul ℝ Vec3 := ⟨fun t v => ⟨t * v.x, t * v.y, t * v.z⟩⟩

instance : Add Vec4 := ⟨fun u v => ⟨u.x + v.x, u.y + v.y, u.z + v.z, u.w + v.w⟩⟩

instance : Zero Vec4 := ⟨⟨0, 0, 0, 0⟩⟩

instance : SMul ℝ Vec4 := ⟨fun t v => ⟨t * v.x, t * v.y, t * v.z, t * v.w⟩⟩

instance : SMul ℝ Quat := ⟨fun t q => ⟨t * q.x, t * q.y, t * q.z, t * q.w⟩⟩

/-- `Vec4::xyz()` (also `Vec4Swizzles::xyz`). -/
def Vec4.xyz (v : Vec4) : Vec3 := ⟨v.x, v.y, v.z⟩

/-- Build a `Vec4` from a `Vec3` and a `w` component (`(v, w).into()`). -/
def Vec3.toVec4 (v : Vec3) (w : ℝ) : Vec4 := ⟨v.x, v.y, v.z, w⟩

/-- `Vec3::dot`. -/
def Vec3.dot (u v : Vec3) : ℝ := u.x * v.x + u.y * v.y + u.z * v.z

/-- `Vec3::cross`. -/
def Vec3.cross (u v : Vec3) : Vec3 :=
  ⟨u.y * v.z - u.z * v.y, u.z * v.x - u.x * v.z, u.x * v.y - u.y * v.x⟩

/-- `Vec3::length_squared`. -/
def Vec3.lengthSq (v : Vec3) : ℝ := v.x * v.x + v.y * v.y + v.z * v.z

/-- `Vec3::length`. -/
def Vec3.length (v : Vec3) : ℝ := Real.sqrt v.lengthSq

/-- `Vec3::normalize` — multiplies by the reciprocal length with no zero
check (glam yields NaN on the zero vector; over `ℝ` the convention
`0⁻¹ = 0` yields the zero vector instead). -/
def Vec3.normalize (v : Vec3) : Vec3 := v.length⁻¹ • v

/-- `Vec3::normalize_or_zero` — the normalized vector when the reciprocal
length is finite and positive (equivalently: the length is positive),
otherwise zero. -/
def Vec3.normalizeOrZero (v : Vec3) : Vec3 :=
  if 0 < v.length then v.length⁻¹ • v else 0

/-- `Vec4::length_squared`. -/
def Vec4.lengthSq (v : Vec4) : ℝ := v.x * v.x + v.y * v.y + v.z * v.z + v.w * v.w

/-- `Vec4::length`. -/
def Vec4.length (v : Vec4) : ℝ := Real.sqrt v.lengthSq

/-- `Vec4::normalize_or_zero`. -/
def Vec4.normalizeOrZero (v : Vec4) : Vec4 :=
  if 0 < v.length then v.length⁻¹ • v else 0

/-- Two vectors are parallel when one is a nonzero scalar multiple of the
other. -/
def Vec3.parallelWith (u v : Vec3) : Prop := ∃ t : ℝ, t ≠ 0 ∧ u = t • v

/-! ## glam quaternions -/

/-- `Quat::length_squared`. -/
def Quat.lengthSq (q : Quat) : ℝ := q.x * q.x + q.y * q.y + q.z * q.z + q.w * q.w

/-- `Quat::length`. -/
def Quat.length (q : Quat) : ℝ := Real.sqrt q.lengthSq

/-- `Quat::normalize` — `self * self.length().recip()` (NaN for the zero
quaternion in glam; the zero quaternion over `ℝ`). -/
def Quat.normalize (q : Quat) : Quat := q.length⁻¹ • q

/-- `Quat::IDENTITY`. -/
def Quat.identity : Quat := ⟨0, 0, 0, 1⟩

/-- `Quat::from_rotation_y(angle)` = `(0, sin(angle/2), 0, cos(angle/2))`. -/
def Quat.fromRotationY (angle : ℝ) : Quat :=
  ⟨0, Real.sin (angle * (1 / 2)), 0, Real.cos (angle * (1 / 2))⟩

/-! ## glam matrices (column major; `xAxis` is column 0) -/

/-- `glam::Mat3` as its three columns. -/
structure Mat3 where
  xAxis : Vec3
  yAxis : Vec3
  zAxis : Vec3

/-- `glam::Mat4` as its four columns. -/
structure Mat4 where
  xAxis : Vec4
  yAxis : Vec4
  zAxis : Vec4
  wAxis : Vec4

/-- `Mat3::from_cols`. -/
def Mat3.fromCols (x y z : Vec3) : Mat3 := ⟨x, y, z⟩

/-- `Mat3::from_quat` (the caller must pass a unit quaternion for the result
to be a rotation, exactly as in glam). -/
def Mat3.fromQuat (q : Quat) : Mat3 :=
  ⟨⟨1 - 2 * (q.y * q.y + q.z * q.z), 2 * (q.x * q.y + q.w * q.z),
    2 * (q.x * q.z - q.w * q.y)⟩,
   ⟨2 * (q.x * q.y - q.w * q.z), 1 - 2 * (q.x * q.x + q.z * q.z),
    2 * (q.y * q.z + q.w * q.x)⟩,
   ⟨2 * (q.x * q.z + q.w * q.y), 2 * (q.y * q.z - q.w * q.x),
    1 - 2 * (q.x * q.x + q.y * q.y)⟩⟩

/-- `Quat::from_mat3` — glam's `from_rotation_axes`, the DirectXMath
`XMQuaternionRotationMatrix` branch structure.  `m{c}{r}` is row `r` of
column `c`. -/
def Quat.fromMat3 (m : Mat3) : Quat :=
  let m00 := m.xAxis.x
  let m01 := m.xAxis.y
  let m02 := m.xAxis.z
  let m10 := m.yAxis.x
  let m11 := m.yAxis.y
  let m12 := m.yAxis.z
  let m20 := m.zAxis.x
  let m21 := m.zAxis.y
  let m22 := m.zAxis.z
  if m22 ≤ 0 then
    let dif10 := m11 - m00
    let omm22 := 1 - m22
    if dif10 ≤ 0 then
      let fourXSq := omm22 - dif10
      let inv4x := (1 / 2) / Real.sqrt fourXSq
      ⟨fourXSq * inv4x, (m01 + m10) * inv4x, (m02 + m20) * inv4x,
       (m12 - m21) * inv4x⟩
    else
      let fourYSq := omm22 + dif10
      let inv4y := (1 / 2) / Real.sqrt fourYSq
      ⟨(m01 + m10) * inv4y, fourYSq * inv4y, (m12 + m21) * inv4y,
       (m20 - m02) * inv4y⟩
  else
    let sum10 := m11 + m00
    let opm22 := 1 + m22
    if sum10 ≤ 0 then
      let fourZSq := opm22 - sum10
      let inv4z := (1 / 2) / Real.sqrt fourZSq
      ⟨(m02 + m20) * inv4z, (m12 + m21) * inv4z, fourZSq * inv4z,
       (m01 - m10) * inv4z⟩
    else
      let fourWSq := opm22 + sum10
      let inv4w := (1 / 2) / Real.sqrt fourWSq
      ⟨(m12 - m21) * inv4w, (m20 - m02) * inv4w, (m01 - m10) * inv4w,
       fourWSq * inv4w⟩

/-- `Mat4::IDENTITY`. -/
def Mat4.identity : Mat4 :=
  ⟨⟨1, 0, 0, 0⟩, ⟨0, 1, 0, 0⟩, ⟨0, 0, 1, 0⟩, ⟨0, 0, 0, 1⟩⟩

/-- `Mat4::from_quat` — rotation in the 3×3 block, affine elsewhere. -/
def Mat4.fromQuat (q : Quat) : Mat4 :=
  let r := Mat3.fromQuat q
  ⟨r.xAxis.toVec4 0, r.yAxis.toVec4 0, r.zAxis.toVec4 0, ⟨0, 0, 0, 1⟩⟩

/-- `Mat4::from_rotation_translation`. -/
def Mat4.fromRotationTranslation (q : Quat) (t : Vec3) : Mat4 :=
  let r := Mat3.fromQuat q
  ⟨r.xAxis.toVec4 0, r.yAxis.toVec4 0, r.zAxis.toVec4 0, t.toVec4 1⟩

/-- `Mat4::from_scale_rotation_translation`. -/
def Mat4.fromScaleRotationTranslation (s : Vec3) (q : Quat) (t : Vec3) : Mat4 :=
  let r := Mat3.fromQuat q
  ⟨(s.x • r.xAxis).toVec4 0, (s.y • r.yAxis).toVec4 0,
   (s.z • r.zAxis).toVec4 0, t.toVec4 1⟩

/-- `Mat4::mul_vec4` — linear combination of the columns. -/
def Mat4.mulVec4 (m : Mat4) (v : Vec4) : Vec4 :=
  v.x • m.xAxis + v.y • m.yAxis + v.z • m.zAxis + v.w • m.wAxis

/-- `Mat4::mul_mat4` (`self * rhs`). -/
def Mat4.mul (m n : Mat4) : Mat4 :=
  ⟨m.mulVec4 n.xAxis, m.mulVec4 n.yAxis, m.mulVec4 n.zAxis, m.mulVec4 n.wAxis⟩

/-- `glam::mat4(c0, c1, c2, c3)`. -/
def mat4 (c0 c1 c2 c3 : Vec4) : Mat4 := ⟨c0, c1, c2, c3⟩

/-! ## The `GameObject` trait of `src/interfaces.rs`

The trait's provided methods only read and write the entity's world
transform (`ref_world_transform` / `mut_world_transform`), so they are
modelled as functions `Mat4 → Mat4` on that transform. -/

namespace GameObject

/-- `GameObject::get_position` — `w_axis.xyz()`. -/
def getPosition (m : Mat4) : Vec3 := m.wAxis.xyz

/-- `GameObject::set_position` — `w_axis = (position, 1.0).into()`. -/
def setPosition (position : Vec3) (m : Mat4) : Mat4 :=
  { m with wAxis := position.toVec4 1 }

/-- `GameObject::translate_world`. -/
def translateWorld (distance : Vec3) (m : Mat4) : Mat4 :=
  setPosition (getPosition m + distance) m

/-- `GameObject::translate_local` — the distance is taken along the
normalized basis columns. -/
def translateLocal (distance : Vec3) (m : Mat4) : Mat4 :=
  let right := distance.x • m.xAxis.normalizeOrZero.xyz
  let up := distance.y • m.yAxis.normalizeOrZero.xyz
  let look := distance.z • m.zAxis.normalizeOrZero.xyz
  translateWorld (right + up + look) m

/-- `GameObject::set_rotation` — replaces the three basis columns by the
rotation matrix of the re-normalized quaternion. -/
def setRotation (rotation : Quat) (m : Mat4) : Mat4 :=
  let mat := Mat4.fromQuat rotation.normalize
  { m with xAxis := mat.xAxis, yAxis := mat.yAxis, zAxis := mat.zAxis }

/-- `GameObject::look_at_point`. -/
def lookAtPoint (point : Vec3) (m : Mat4) : Mat4 :=
  let position := m.wAxis.xyz
  let up := m.yAxis.xyz
  let look := (position - point).normalizeOrZero
  let right := (up.cross look).normalizeOrZero
  let up2 := (look.cross right).normalizeOrZero
  { m with xAxis := right.toVec4 0, yAxis := up2.toVec4 0,
           zAxis := look.toVec4 0 }

/-- `GameObject::rotate` — left-multiplies the rotation matrix of the
re-normalized quaternion onto the world transform. -/
def rotate (rotation : Quat) (m : Mat4) : Mat4 :=
  (Mat4.fromQuat rotation.normalize).mul m

end GameObject

/-- `GameCameraObject::get_camera_transform` (`src/interfaces.rs`) — the
view matrix assembled from the normalized basis columns and the position. -/
def getCameraTransform (m : Mat4) : Mat4 :=
  let right := m.xAxis.xyz.normalizeOrZero
  let up := m.yAxis.xyz.normalizeOrZero
  let look := m.zAxis.xyz.normalizeOrZero
  let position := m.wAxis.xyz
  mat4
    ⟨right.x, up.x, look.x, 0⟩
    ⟨right.y, up.y, look.y, 0⟩
    ⟨right.z, up.z, look.z, 0⟩
    ⟨-(position.dot right), -(position.dot up), -(position.dot look), 1⟩

/-! ## `PerspectiveCameraBuilder` (`src/camera.rs`) -/

/-- The configuration state of `PerspectiveCameraBuilder`. -/
structure PerspectiveCameraBuilder where
  translation : Vec3
  rotation : Quat
  fovYRadians : ℝ
  aspectRatio : ℝ
  zNear : ℝ
  zFar : ℝ

namespace PerspectiveCameraBuilder

/-- `PerspectiveCameraBuilder::new`. -/
def new (fovYRadians aspectRatio zNear zFar : ℝ) : PerspectiveCameraBuilder :=
  ⟨0, Quat.identity, fovYRadians, aspectRatio, zNear, zFar⟩

/-- `PerspectiveCameraBuilder::set_translation`. -/
def setTranslation (self : PerspectiveCameraBuilder) (translation : Vec3) :
    PerspectiveCameraBuilder :=
  { self with translation := translation }

/-- `PerspectiveCameraBuilder::translate_world`. -/
def translateWorld (self : PerspectiveCameraBuilder) (distance : Vec3) :
    PerspectiveCameraBuilder :=
  { self with translation := self.translation + distance }

/-- `PerspectiveCameraBuilder::look_at_point` — note that `right` and the
recomputed `up` are *not* re-normalized here (unlike the object builder),
and that the camera looks along `translation - point`. -/
def lookAtPoint (self : PerspectiveCameraBuilder) (point : Vec3) :
    PerspectiveCameraBuilder :=
  let mat := Mat3.fromQuat self.rotation.normalize
  let up := mat.yAxis.normalizeOrZero
  let look := (self.translation - point).normalizeOrZero
  let right := up.cross look
  let up2 := look.cross right
  { self with
    rotation := (Quat.fromMat3 (Mat3.fromCols right up2 look)).normalize }

/-- `PerspectiveCameraBuilder::build` — the world transform of the built
`PerspectiveCamera` (GPU buffer and bind group allocation is external to
this model). -/
def buildTransform (self : PerspectiveCameraBuilder) : Mat4 :=
  Mat4.fromRotationTranslation self.rotation.normalize self.translation

/-- The z axis of the builder's rotation (the look basis vector the built
camera will carry, since `build` bakes `rotation.normalize()` into the
transform). -/
def lookBasis (self : PerspectiveCameraBuilder) : Vec3 :=
  (Mat3.fromQuat self.rotation.normalize).zAxis

end PerspectiveCameraBuilder

/-! ## `ColordObjectBuilder` (`src/objects.rs`) -/

/-- The configuration state of `ColordObjectBuilder` (source spelling kept).
The color is carried along but plays no role in the transform claims. -/
structure ColordObjectBuilder where
  translation : Vec3
  rotation : Quat
  scale : Vec3
  color : Vec4

namespace ColordObjectBuilder

/-- `ColordObjectBuilder::new` — `Default::default()`: zero translation and
scale, identity rotation, zero color (glam's `Quat` default is the
identity quaternion). -/
def new : ColordObjectBuilder := ⟨0, Quat.identity, 0, 0⟩

/-- `ColordObjectBuilder::set_scale`. -/
def setScale (self : ColordObjectBuilder) (scale : Vec3) : ColordObjectBuilder :=
  { self with scale := scale }

/-- `ColordObjectBuilder::set_translation`. -/
def setTranslation (self : ColordObjectBuilder) (translation : Vec3) :
    ColordObjectBuilder :=
  { self with translation := translation }

/-- `ColordObjectBuilder::look_at_point` — the object looks *toward* the
point (`point - translation`), `right` and the recomputed `up` are
re-normalized, and the resulting quaternion is stored *without*
normalization. -/
def lookAtPoint (self : ColordObjectBuilder) (point : Vec3) :
    ColordObjectBuilder :=
  let mat := Mat3.fromQuat self.rotation
  let up := mat.yAxis.normalizeOrZero
  let look := (point - self.translation).normalizeOrZero
  let right := (up.cross look).normalizeOrZero
  let up2 := (look.cross right).normalizeOrZero
  { self with rotation := Quat.fromMat3 (Mat3.fromCols right up2 look) }

/-- `ColordObjectBuilder::build` — the world transform of the built
`ColoredObject`: scale is baked into the basis columns here, once. -/
def buildTransform (self : ColordObjectBuilder) : Mat4 :=
  Mat4.fromScaleRotationTranslation self.scale self.rotation.normalize
    self.translation

/-- The z axis of the builder's rotation (`build` bakes
`rotation.normalize()` into the transform). -/
def lookBasis (self : ColordObjectBuilder) : Vec3 :=
  (Mat3.fromQuat self.rotation.normalize).zAxis

end ColordObjectBuilder

/-! ## World-entity operation sequences (for the invariant claims) -/

/-- One in-place mutation of a world entity through the `GameObject`
trait. -/
inductive WorldOp where
  | rotate (q : Quat)
  | translateLocal (d : Vec3)
  | translateWorld (d : Vec3)

/-- Apply one trait operation to a world transform. -/
def applyOp : WorldOp → Mat4 → Mat4
  | .rotate q, m => GameObject.rotate q m
  | .translateLocal d, m => GameObject.translateLocal d m
  | .translateWorld d, m => GameObject.translateWorld d m

/-- Apply a finite sequence of trait operations, first element first. -/
def applyOps (ops : List WorldOp) (m : Mat4) : Mat4 :=
  ops.foldl (fun acc op => applyOp op acc) m

/-- Orthonormality of the upper-left 3×3 block of a world transform:
columns unit length and mutually perpendicular. -/
def Mat4.orthonormal3 (m : Mat4) : Prop :=
  m.xAxis.xyz.dot m.xAxis.xyz = 1 ∧ m.yAxis.xyz.dot m.yAxis.xyz = 1 ∧
  m.zAxis.xyz.dot m.zAxis.xyz = 1 ∧ m.xAxis.xyz.dot m.yAxis.xyz = 0 ∧
  m.xAxis.xyz.dot m.zAxis.xyz = 0 ∧ m.yAxis.xyz.dot m.zAxis.xyz = 0

/-- An affine world transform: basis columns have `w = 0`, the translation
column has `w = 1`.  Every transform constructed by the builders and
preserved by the trait mutations has this shape. -/
def Mat4.affine (m : Mat4) : Prop :=
  m.xAxis.w = 0 ∧ m.yAxis.w = 0 ∧ m.zAxis.w = 0 ∧ m.wAxis.w = 1

/-! ## The transparent pipeline descriptor (`src/pipeline.rs`) -/

/-- The `wgpu::BlendFactor` variants used by this program. -/
inductive BlendFactor where
  | zero
  | one
  | oneMinusSrc
  | srcAlpha
  | oneMinusSrcAlpha
deriving DecidableEq, Repr

/-- The `wgpu::BlendOperation` variants used by this program. -/
inductive BlendOperation where
  | add
deriving DecidableEq, Repr

/-- `wgpu::BlendComponent`. -/
structure BlendComponent where
  srcFactor : BlendFactor
  dstFactor : BlendFactor
  operation : BlendOperation
deriving DecidableEq, Repr

/-- `wgpu::BlendState`. -/
structure BlendState where
  color : BlendComponent
  alpha : BlendComponent
deriving DecidableEq, Repr

/-- The `wgpu::TextureFormat` variants used by this program. -/
inductive TextureFormat where
  | rgba16Float
  | r8Unorm
  | bgra8Unorm
  | depth32Float
deriving DecidableEq, Repr

/-- The `wgpu::CompareFunction` variants used by this program. -/
inductive CompareFunction where
  | less
deriving DecidableEq, Repr

/-- `wgpu::ColorTargetState` (write mask is always `ColorWrites::ALL`
here, recorded as a plain flag). -/
structure ColorTargetState where
  format : TextureFormat
  blend : Option BlendState
  writeMaskAll : Bool
deriving DecidableEq, Repr

/-- The fields of `wgpu::DepthStencilState` fixed by this program. -/
structure DepthStencilState where
  format : TextureFormat
  depthWriteEnabled : Bool
  depthCompare : CompareFunction
deriving DecidableEq, Repr

/-- The parts of the render-pipeline descriptor that the claims are about. -/
structure PipelineDesc where
  depthStencil : DepthStencilState
  fragmentTargets : List ColorTargetState
deriving DecidableEq, Repr

/-- The blend and depth state of `create_transparent_pipeline`
(`src/pipeline.rs`, the two `ColorTargetState`s and the
`DepthStencilState` of the descriptor). -/
def createTransparentPipeline : PipelineDesc :=
  { depthStencil :=
      { format := .depth32Float
        depthWriteEnabled := false
        depthCompare := .less }
    fragmentTargets :=
      [ { format := .rgba16Float
          blend := some
            { color := ⟨.one, .one, .add⟩
              alpha := ⟨.one, .one, .add⟩ }
          writeMaskAll := true }
      , { format := .r8Unorm
          blend := some
            { color := ⟨.zero, .oneMinusSrc, .add⟩
              alpha := ⟨.zero, .oneMinusSrc, .add⟩ }
          writeMaskAll := true } ] }

/-- The value a `wgpu::BlendFactor` contributes for a scalar channel, given
the source and destination values of that channel (source alpha equals the
source value on a single-channel target). -/
def BlendFactor.eval (f : BlendFactor) (src dst : ℝ) : ℝ :=
  match f with
  | .zero => 0
  | .one => 1
  | .oneMinusSrc => 1 - src
  | .srcAlpha => src
  | .oneMinusSrcAlpha => 1 - src

/-- The blended output of a `wgpu::BlendComponent` on one scalar channel:
`operation(srcFactor * src, dstFactor * dst)`. -/
def BlendComponent.eval (c : BlendComponent) (src dst : ℝ) : ℝ :=
  match c.operation with
  | .add => c.srcFactor.eval src dst * src + c.dstFactor.eval src dst * dst

/-! ## The resize transition of the render loop (`src/main.rs`)

The `WindowEvent::Resized` arm of the render loop, modelled as a state
transition over the sizes of the GPU resources it owns, together with the
ordered trace of device calls it performs. -/

/-- The GPU-sized resources owned by the render loop. -/
inductive TexKind where
  | accum
  | reveal
  | depthStencil
deriving DecidableEq, Repr

/-- One observable device call made by the resize arm, in program order. -/
inductive DeviceAction where
  | pollAllWait
  | configureSurface (width height : ℕ)
  | createTexture (kind : TexKind) (width height : ℕ)
  | createOitBindGroup (accumSize revealSize : ℕ × ℕ)
deriving DecidableEq, Repr

/-- The sizes of the render loop's size-dependent resources:
surface configuration, the three textures, and the sizes of the two
texture views the accum/reveal bind group references. -/
structure RenderResources where
  configSize : ℕ × ℕ
  accumSize : ℕ × ℕ
  revealSize : ℕ × ℕ
  depthStencilSize : ℕ × ℕ
  bindGroupAccum : ℕ × ℕ
  bindGroupReveal : ℕ × ℕ
deriving DecidableEq, Repr

/-- The `WindowEvent::Resized(size)` arm of the render loop
(`src/main.rs`): when both dimensions are positive it waits for the
device, reconfigures the surface, recreates accum, recreates reveal,
recreates the OIT bind group, and finally recreates the depth-stencil
texture — in exactly that program order; otherwise it does nothing. -/
def handleResize (width height : ℕ) (st : RenderResources) :
    RenderResources × List DeviceAction :=
  if 0 < width ∧ 0 < height then
    ({ configSize := (width, height)
       accumSize := (width, height)
       revealSize := (width, height)
       depthStencilSize := (width, height)
       bindGroupAccum := (width, height)
       bindGroupReveal := (width, height) },
     [ .pollAllWait
     , .configureSurface width height
     , .createTexture .accum width height
     , .createTexture .reveal width height
     , .createOitBindGroup (width, height) (width, height)
     , .createTexture .depthStencil width height ])
  else
    (st, [])

/-- Whether a device action creates one of the four sized resources
(the three textures or the accum/reveal bind group). -/
def DeviceAction.isResourceCreation : DeviceAction → Bool
  | .createTexture _ _ _ => true
  | .createOitBindGroup _ _ => true
  | _ => false

/-- The 180°/s · Δt rotation step applied on an ArrowLeft key press
(`src/main.rs`): `rotate(Quat::from_rotation_y(-180°.to_radians() * dt))`. -/
def rotateLeftKey (dt : ℝ) (m : Mat4) : Mat4 :=
  GameObject.rotate (Quat.fromRotationY (-Real.pi * dt)) m

/-- The 180°/s · Δt rotation step applied on an ArrowRight key press
(`src/main.rs`): `rotate(Quat::from_rotation_y(180°.to_radians() * dt))`. -/
def rotateRightKey (dt : ℝ) (m : Mat4) : Mat4 :=
  GameObject.rotate (Quat.fromRotationY (Real.pi * dt)) m

/-! ## Basic lemmas about the embedded glam operations -/

@[ext] theorem Vec3.ext_vec3 {u v : Vec3} (hx : u.x = v.x) (hy : u.y = v.y)
    (hz : u.z = v.z) : u = v := by
  cases u; cases v; simp_all

@[ext] theorem Vec4.ext_vec4 {u v : Vec4} (hx : u.x = v.x) (hy : u.y = v.y)
    (hz : u.z = v.z) (hw : u.w = v.w) : u = v := by
  cases u; cases v; simp_all

@[ext] theorem Quat.ext_quat {u v : Quat} (hx : u.x = v.x) (hy : u.y = v.y)
    (hz : u.z = v.z) (hw : u.w = v.w) : u = v := by
  cases u; cases v; simp_all

@[ext] theorem Mat3.ext_mat3 {m n : Mat3} (hx : m.xAxis = n.xAxis)
    (hy : m.yAxis = n.yAxis) (hz : m.zAxis = n.zAxis) : m = n := by
  cases m; cases n; simp_all

@[ext] theorem Mat4.ext_mat4 {m n : Mat4} (hx : m.xAxis = n.xAxis)
    (hy : m.yAxis = n.yAxis) (hz : m.zAxis = n.zAxis)
    (hw : m.wAxis = n.wAxis) : m = n := by
  cases m; cases n; simp_all

@[simp] theorem Vec3.add_vec3_def (u v : Vec3) :
    u + v = ⟨u.x + v.x, u.y + v.y, u.z + v.z⟩ := rfl

@[simp] theorem Vec3.sub_def (u v : Vec3) :
    u - v = ⟨u.x - v.x, u.y - v.y, u.z - v.z⟩ := rfl

@[simp] theorem Vec3.neg_def (v : Vec3) : -v = ⟨-v.x, -v.y, -v.z⟩ := rfl

@[simp] theorem Vec3.zero_vec3_def : (0 : Vec3) = ⟨0, 0, 0⟩ := rfl

@[simp] theorem Vec3.smul_vec3_def (t : ℝ) (v : Vec3) :
    t • v = ⟨t * v.x, t * v.y, t * v.z⟩ := rfl

@[simp] theorem Vec4.add_vec4_def (u v : Vec4) :
    u + v = ⟨u.x + v.x, u.y + v.y, u.z + v.z, u.w + v.w⟩ := rfl

@[simp] theorem Vec4.zero_vec4_def : (0 : Vec4) = ⟨0, 0, 0, 0⟩ := rfl

@[simp] theorem Vec4.smul_vec4_def (t : ℝ) (v : Vec4) :
    t • v = ⟨t * v.x, t * v.y, t * v.z, t * v.w⟩ := rfl

@[simp] theorem Quat.smul_quat_def (t : ℝ) (q : Quat) :
    t • q = ⟨t * q.x, t * q.y, t * q.z, t * q.w⟩ := rfl

theorem Vec3.lengthSq_nonneg (v : Vec3) : 0 ≤ v.lengthSq := by
  unfold Vec3.lengthSq
  linarith [mul_self_nonneg v.x, mul_self_nonneg v.y, mul_self_nonneg v.z]

theorem Vec3.lengthSq_eq_zero_iff {v : Vec3} : v.lengthSq = 0 ↔ v = 0 := by
  unfold Vec3.lengthSq
  constructor
  · intro h
    ext <;> simp <;>
      nlinarith [sq_nonneg v.x, sq_nonneg v.y, sq_nonneg v.z]
  · intro h
    subst h
    simp

theorem Vec3.length_pos {v : Vec3} (h : v ≠ 0) : 0 < v.length := by
  apply Real.sqrt_pos.mpr
  rcases lt_or_eq_of_le (Vec3.lengthSq_nonneg v) with hlt | heq
  · exact hlt
  · exact absurd (Vec3.lengthSq_eq_zero_iff.mp heq.symm) h

theorem Vec3.length_mul_self {v : Vec3} : v.length * v.length = v.lengthSq :=
  Real.mul_self_sqrt (Vec3.lengthSq_nonneg v)

theorem Vec3.normalizeOrZero_of_ne_zero {v : Vec3} (h : v ≠ 0) :
    v.normalizeOrZero = v.length⁻¹ • v := by
  unfold Vec3.normalizeOrZero
  rw [if_pos (Vec3.length_pos h)]

theorem Vec3.normalizeOrZero_eq_normalize {v : Vec3} (h : v ≠ 0) :
    v.normalizeOrZero = v.normalize :=
  Vec3.normalizeOrZero_of_ne_zero h

@[simp] theorem Vec3.normalizeOrZero_zero : (0 : Vec3).normalizeOrZero = 0 := by
  unfold Vec3.normalizeOrZero
  split_ifs with h
  · ext <;> simp
  · rfl

theorem Vec3.lengthSq_normalizeOrZero {v : Vec3} (h : v ≠ 0) :
    v.normalizeOrZero.lengthSq = 1 := by
  rw [Vec3.normalizeOrZero_of_ne_zero h]
  have hpos := Vec3.length_pos h
  have hms := Vec3.length_mul_self (v := v)
  have hne : v.length ≠ 0 := ne_of_gt hpos
  have hs : v.lengthSq ≠ 0 := fun hz => h (Vec3.lengthSq_eq_zero_iff.mp hz)
  simp only [Vec3.smul_vec3_def, Vec3.lengthSq] at hms ⊢
  field_simp
  linear_combination (-1 : ℝ) * hms

theorem Vec3.normalizeOrZero_of_lengthSq_one {v : Vec3} (h : v.lengthSq = 1) :
    v.normalizeOrZero = v := by
  have hv : v ≠ 0 := by
    intro hz
    rw [hz] at h
    simp [Vec3.lengthSq] at h
  have hlen : v.length = 1 := by
    unfold Vec3.length
    rw [h, Real.sqrt_one]
  rw [Vec3.normalizeOrZero_of_ne_zero hv, hlen]
  ext <;> simp

theorem Vec3.dot_comm (u v : Vec3) : u.dot v = v.dot u := by
  unfold Vec3.dot; ring

theorem Vec3.dot_cross_right (u v : Vec3) : (u.cross v).dot v = 0 := by
  unfold Vec3.dot Vec3.cross; ring

theorem Vec3.dot_smul_left (t : ℝ) (u v : Vec3) :
    (t • u).dot v = t * u.dot v := by
  unfold Vec3.dot; simp; ring

theorem Vec3.lengthSq_cross (u v : Vec3) :
    (u.cross v).lengthSq = u.lengthSq * v.lengthSq - (u.dot v) ^ 2 := by
  unfold Vec3.lengthSq Vec3.cross Vec3.dot; ring

@[simp] theorem Vec3.cross_zero (u : Vec3) : u.cross 0 = 0 := by
  unfold Vec3.cross; ext <;> simp

theorem Vec3.sub_ne_zero {u v : Vec3} (h : u ≠ v) : u - v ≠ 0 := by
  intro hz
  apply h
  have hx := congrArg Vec3.x hz
  have hy := congrArg Vec3.y hz
  have hz2 := congrArg Vec3.z hz
  simp at hx hy hz2
  ext <;> [linarith; linarith; linarith]

theorem Vec3.neg_sub_swap (u v : Vec3) : u - v = -(v - u) := by
  ext <;> simp

theorem Vec3.lengthSq_neg (v : Vec3) : (-v).lengthSq = v.lengthSq := by
  unfold Vec3.lengthSq; simp

theorem Vec3.normalize_neg (v : Vec3) : (-v).normalize = -(v.normalize) := by
  unfold Vec3.normalize Vec3.length
  rw [Vec3.lengthSq_neg]
  ext <;> simp <;> ring

theorem Quat.lengthSq_nonneg_quat (q : Quat) : 0 ≤ q.lengthSq := by
  unfold Quat.lengthSq
  linarith [mul_self_nonneg q.x, mul_self_nonneg q.y, mul_self_nonneg q.z,
    mul_self_nonneg q.w]

theorem Quat.lengthSq_eq_zero_iff_quat {q : Quat} : q.lengthSq = 0 ↔ q = ⟨0, 0, 0, 0⟩ := by
  unfold Quat.lengthSq
  constructor
  · intro h
    ext <;> simp <;>
      nlinarith [sq_nonneg q.x, sq_nonneg q.y, sq_nonneg q.z, sq_nonneg q.w]
  · intro h
    rw [h]
    simp

theorem Quat.length_mul_self_quat (q : Quat) : q.length * q.length = q.lengthSq :=
  Real.mul_self_sqrt (Quat.lengthSq_nonneg_quat q)

theorem Quat.length_pos_quat {q : Quat} (h : q.lengthSq ≠ 0) : 0 < q.length := by
  apply Real.sqrt_pos.mpr
  rcases lt_or_eq_of_le (Quat.lengthSq_nonneg_quat q) with hlt | heq
  · exact hlt
  · exact absurd heq.symm h

theorem Quat.lengthSq_normalize {q : Quat} (h : q.lengthSq ≠ 0) :
    q.normalize.lengthSq = 1 := by
  unfold Quat.normalize
  have hpos := Quat.length_pos_quat h
  have hms := Quat.length_mul_self_quat q
  have hne : q.length ≠ 0 := ne_of_gt hpos
  simp only [Quat.smul_quat_def, Quat.lengthSq] at hms ⊢
  field_simp
  linear_combination (-1 : ℝ) * hms

theorem Quat.normalize_of_lengthSq_one {q : Quat} (h : q.lengthSq = 1) :
    q.normalize = q := by
  unfold Quat.normalize Quat.length
  rw [h, Real.sqrt_one]
  ext <;> simp

theorem Quat.normalize_zero : Quat.normalize ⟨0, 0, 0, 0⟩ = ⟨0, 0, 0, 0⟩ := by
  unfold Quat.normalize
  ext <;> simp

theorem Quat.normalize_idem (q : Quat) : q.normalize.normalize = q.normalize := by
  by_cases h : q.lengthSq = 0
  · have hq := Quat.lengthSq_eq_zero_iff_quat.mp h
    rw [hq, Quat.normalize_zero, Quat.normalize_zero]
  · exact Quat.normalize_of_lengthSq_one (Quat.lengthSq_normalize h)

theorem Quat.normalize_smul_of_pos {t : ℝ} (ht : 0 < t) (q : Quat) :
    (t • q).normalize = q.normalize := by
  unfold Quat.normalize Quat.length
  have hsq : (t • q).lengthSq = t ^ 2 * q.lengthSq := by
    simp only [Quat.smul_quat_def, Quat.lengthSq]
    ring
  rw [hsq, Real.sqrt_mul (by positivity), Real.sqrt_sq ht.le]
  have htne : t ≠ 0 := ne_of_gt ht
  ext <;> simp <;> field_simp <;>
    rw [mul_comm (Real.sqrt q.lengthSq) t, mul_div_mul_left _ _ htne]

/-! ## The look-at quaternion roundtrip

`look_at_point` in both builders assembles a matrix of the shape
`[r, l × r, l]` with `l` a unit look vector and `r ⊥ l`, feeds it through
`Quat::from_mat3`, and the rotation that quaternion denotes is read back
with `Mat3::from_quat`.  The key fact, proved exactly over `ℝ`, is that
the z axis of the read-back rotation is exactly `l` — in all four
branches of `from_mat3`, including the degenerate case `r = 0` that
arises when the current up vector is parallel to the look direction. -/

theorem Quat.lengthSq_ne_zero_of_x {q : Quat} (h : 1 ≤ q.x) : q.lengthSq ≠ 0 := by
  unfold Quat.lengthSq
  intro hz
  nlinarith [mul_self_nonneg q.y, mul_self_nonneg q.z, mul_self_nonneg q.w]

theorem Quat.lengthSq_ne_zero_of_y {q : Quat} (h : 1 ≤ q.y) : q.lengthSq ≠ 0 := by
  unfold Quat.lengthSq
  intro hz
  nlinarith [mul_self_nonneg q.x, mul_self_nonneg q.z, mul_self_nonneg q.w]

theorem Quat.lengthSq_ne_zero_of_z {q : Quat} (h : 1 ≤ q.z) : q.lengthSq ≠ 0 := by
  unfold Quat.lengthSq
  intro hz
  nlinarith [mul_self_nonneg q.x, mul_self_nonneg q.y, mul_self_nonneg q.w]

theorem Quat.lengthSq_ne_zero_of_w {q : Quat} (h : 1 ≤ q.w) : q.lengthSq ≠ 0 := by
  unfold Quat.lengthSq
  intro hz
  nlinarith [mul_self_nonneg q.x, mul_self_nonneg q.y, mul_self_nonneg q.z]

/-- Dropping the positive `0.5 / sqrt(four)` factor that `from_mat3`
applies to each component does not change the normalized quaternion. -/
theorem Quat.normalize_scaled (X Y Z W F : ℝ) (hF : 1 ≤ F) :
    Quat.normalize
      ⟨X * ((1 / 2) / Real.sqrt F), Y * ((1 / 2) / Real.sqrt F),
       Z * ((1 / 2) / Real.sqrt F), W * ((1 / 2) / Real.sqrt F)⟩ =
    Quat.normalize ⟨X, Y, Z, W⟩ := by
  have hs : 0 < Real.sqrt F := Real.sqrt_pos.mpr (by linarith)
  have hinv : 0 < (1 / 2) / Real.sqrt F := by positivity
  have heq : (⟨X * ((1 / 2) / Real.sqrt F), Y * ((1 / 2) / Real.sqrt F),
       Z * ((1 / 2) / Real.sqrt F), W * ((1 / 2) / Real.sqrt F)⟩ : Quat) =
      ((1 / 2) / Real.sqrt F) • (⟨X, Y, Z, W⟩ : Quat) := by
    refine Quat.ext_quat ?_ ?_ ?_ ?_ <;> simp only [Quat.smul_quat_def] <;> ring
  rw [heq, Quat.normalize_smul_of_pos hinv]

/-- The z axis of the rotation matrix of a normalized quaternion, written
over the unnormalized components. -/
theorem Mat3.zAxis_fromQuat_normalize (q : Quat) (hq : q.lengthSq ≠ 0) :
    (Mat3.fromQuat q.normalize).zAxis =
      q.lengthSq⁻¹ •
        (⟨2 * (q.x * q.z + q.w * q.y), 2 * (q.y * q.z - q.w * q.x),
          q.z * q.z + q.w * q.w - q.x * q.x - q.y * q.y⟩ : Vec3) := by
  have hms := Quat.length_mul_self_quat q
  have key : q.length⁻¹ * q.length⁻¹ = q.lengthSq⁻¹ := by
    rw [← mul_inv, hms]
  have hss : q.lengthSq⁻¹ * q.lengthSq = 1 := inv_mul_cancel₀ hq
  have hsum : q.lengthSq = q.x * q.x + q.y * q.y + q.z * q.z + q.w * q.w := rfl
  unfold Quat.normalize
  refine Vec3.ext_vec3 ?_ ?_ ?_ <;>
    simp only [Mat3.fromQuat, Quat.smul_quat_def, Vec3.smul_vec3_def]
  · linear_combination (2 * (q.x * q.z + q.w * q.y)) * key
  · linear_combination (2 * (q.y * q.z - q.w * q.x)) * key
  · linear_combination (-(2 : ℝ) * (q.x * q.x + q.y * q.y)) * key - hss +
      q.lengthSq⁻¹ * hsum

theorem inv_lengthSq_helper (q : Quat) (t a : ℝ) (hq : q.lengthSq ≠ 0)
    (h : t = a * (q.x * q.x + q.y * q.y + q.z * q.z + q.w * q.w)) :
    q.lengthSq⁻¹ * t = a := by
  have hsum : q.lengthSq = q.x * q.x + q.y * q.y + q.z * q.z + q.w * q.w := rfl
  rw [h, ← hsum, mul_comm a, ← mul_assoc, inv_mul_cancel₀ hq, one_mul]

/-- The master roundtrip: for a matrix `[r, l × r, l]` with `l` unit and
`r ⊥ l`, the z axis of the rotation of the (normalized) quaternion that
`Quat::from_mat3` extracts is exactly `l`.  Holds in all four extraction
branches, with no restriction on `r` beyond orthogonality — in particular
also for `r = 0`. -/
theorem zAxis_roundtrip_lookMatrix (r l : Vec3) (hl0 : l.lengthSq = 1)
    (hrl0 : r.dot l = 0) :
    (Mat3.fromQuat
        (Quat.fromMat3 (Mat3.fromCols r (l.cross r) l)).normalize).zAxis = l := by
  obtain ⟨r1, r2, r3⟩ := r
  obtain ⟨a, b, c⟩ := l
  have hl : a * a + b * b + c * c = 1 := by
    simpa [Vec3.lengthSq] using hl0
  have hrl : r1 * a + r2 * b + r3 * c = 0 := by
    simpa [Vec3.dot] using hrl0
  simp only [Mat3.fromCols, Vec3.cross, Quat.fromMat3]
  split_ifs with hc hd hs
  · rw [Quat.normalize_scaled]
    · have hq : (⟨1 - c - (c * r1 - a * r3 - r1), r2 + (b * r3 - c * r2), r3 + a, a * r2 - b * r1 - b⟩ : Quat).lengthSq ≠ 0 :=
        Quat.lengthSq_ne_zero_of_x (by dsimp only; linarith)
      rw [Mat3.zAxis_fromQuat_normalize _ hq]
      refine Vec3.ext_vec3 ?_ ?_ ?_ <;> simp only [Vec3.smul_vec3_def]
      · refine inv_lengthSq_helper _ _ _ hq ?_
        linear_combination
          ((-2 : ℝ) * r3 + (-2 : ℝ) * r1 * r3 + (-1 : ℝ) * a + (-1 : ℝ) * a * r3 * r3 + (-1 : ℝ) * a * r2 * r2 + (-2 : ℝ) * a * r1 + (-1 : ℝ) * a * r1 * r1) * hl +
          ((-2 : ℝ) + (-2 : ℝ) * r1 + (2 : ℝ) * c + (2 : ℝ) * c * r1 + a * c * r3 + a * b * r2 + (2 : ℝ) * a * a + a * a * r1) * hrl
      · refine inv_lengthSq_helper _ _ _ hq ?_
        linear_combination
          ((-2 : ℝ) * r2 * r3 + (-1 : ℝ) * b + (-1 : ℝ) * b * r3 * r3 + (-1 : ℝ) * b * r2 * r2 + (-2 : ℝ) * b * r1 + (-1 : ℝ) * b * r1 * r1) * hl +
          ((-2 : ℝ) * r2 + (2 : ℝ) * c * r2 + b * c * r3 + b * b * r2 + (2 : ℝ) * a * b + a * b * r1) * hrl
      · refine inv_lengthSq_helper _ _ _ hq ?_
        linear_combination
          ((1 : ℝ) + (-1 : ℝ) * r3 * r3 + r2 * r2 + (2 : ℝ) * r1 + r1 * r1 + (-1 : ℝ) * c + (-1 : ℝ) * c * r2 * r2 + (-2 : ℝ) * c * r1 + (-1 : ℝ) * c * r1 * r1 + b * r2 * r3 + a * r1 * r3) * hl +
          ((-1 : ℝ) * r3 + c * r3 + (-1 : ℝ) * b * r2 + b * c * r2 + (-1 : ℝ) * b * b * r3 + (-2 : ℝ) * a + (-1 : ℝ) * a * r1 + (2 : ℝ) * a * c + a * c * r1 + (-1 : ℝ) * a * a * r3) * hrl
    · linarith
  · rw [Quat.normalize_scaled]
    · have hq : (⟨r2 + (b * r3 - c * r2), 1 - c + (c * r1 - a * r3 - r1), a * r2 - b * r1 + b, a - r3⟩ : Quat).lengthSq ≠ 0 :=
        Quat.lengthSq_ne_zero_of_y (by dsimp only; linarith)
      rw [Mat3.zAxis_fromQuat_normalize _ hq]
      refine Vec3.ext_vec3 ?_ ?_ ?_ <;> simp only [Vec3.smul_vec3_def]
      · refine inv_lengthSq_helper _ _ _ hq ?_
        linear_combination
          ((2 : ℝ) * r3 + (-2 : ℝ) * r1 * r3 + (-1 : ℝ) * a + (-1 : ℝ) * a * r3 * r3 + (-1 : ℝ) * a * r2 * r2 + (2 : ℝ) * a * r1 + (-1 : ℝ) * a * r1 * r1) * hl +
          ((2 : ℝ) + (-2 : ℝ) * r1 + (-2 : ℝ) * c + (2 : ℝ) * c * r1 + a * c * r3 + a * b * r2 + (-2 : ℝ) * a * a + a * a * r1) * hrl
      · refine inv_lengthSq_helper _ _ _ hq ?_
        linear_combination
          ((-2 : ℝ) * r2 * r3 + (-1 : ℝ) * b + (-1 : ℝ) * b * r3 * r3 + (-1 : ℝ) * b * r2 * r2 + (2 : ℝ) * b * r1 + (-1 : ℝ) * b * r1 * r1) * hl +
          ((-2 : ℝ) * r2 + (2 : ℝ) * c * r2 + b * c * r3 + b * b * r2 + (-2 : ℝ) * a * b + a * b * r1) * hrl
      · refine inv_lengthSq_helper _ _ _ hq ?_
        linear_combination
          ((1 : ℝ) + (-1 : ℝ) * r3 * r3 + r2 * r2 + (-2 : ℝ) * r1 + r1 * r1 + (-1 : ℝ) * c + (-1 : ℝ) * c * r2 * r2 + (2 : ℝ) * c * r1 + (-1 : ℝ) * c * r1 * r1 + b * r2 * r3 + a * r1 * r3) * hl +
          ((-1 : ℝ) * r3 + c * r3 + (-1 : ℝ) * b * r2 + b * c * r2 + (-1 : ℝ) * b * b * r3 + (2 : ℝ) * a + (-1 : ℝ) * a * r1 + (-2 : ℝ) * a * c + a * c * r1 + (-1 : ℝ) * a * a * r3) * hrl
    · linarith
  · rw [Quat.normalize_scaled]
    · have hq : (⟨r3 + a, a * r2 - b * r1 + b, 1 + c - (c * r1 - a * r3 + r1), r2 - (b * r3 - c * r2)⟩ : Quat).lengthSq ≠ 0 :=
        Quat.lengthSq_ne_zero_of_z (by dsimp only; linarith)
      rw [Mat3.zAxis_fromQuat_normalize _ hq]
      refine Vec3.ext_vec3 ?_ ?_ ?_ <;> simp only [Vec3.smul_vec3_def]
      · refine inv_lengthSq_helper _ _ _ hq ?_
        linear_combination
          ((-2 : ℝ) * r3 + (2 : ℝ) * r1 * r3 + (-1 : ℝ) * a + (-1 : ℝ) * a * r3 * r3 + (-1 : ℝ) * a * r2 * r2 + (2 : ℝ) * a * r1 + (-1 : ℝ) * a * r1 * r1) * hl +
          ((2 : ℝ) + (-2 : ℝ) * r1 + (2 : ℝ) * c + (-2 : ℝ) * c * r1 + a * c * r3 + a * b * r2 + (-2 : ℝ) * a * a + a * a * r1) * hrl
      · refine inv_lengthSq_helper _ _ _ hq ?_
        linear_combination
          ((2 : ℝ) * r2 * r3 + (-1 : ℝ) * b + (-1 : ℝ) * b * r3 * r3 + (-1 : ℝ) * b * r2 * r2 + (2 : ℝ) * b * r1 + (-1 : ℝ) * b * r1 * r1) * hl +
          ((-2 : ℝ) * r2 + (-2 : ℝ) * c * r2 + b * c * r3 + b * b * r2 + (-2 : ℝ) * a * b + a * b * r1) * hrl
      · refine inv_lengthSq_helper _ _ _ hq ?_
        linear_combination
          ((-1 : ℝ) + r3 * r3 + (-1 : ℝ) * r2 * r2 + (2 : ℝ) * r1 + (-1 : ℝ) * r1 * r1 + (-1 : ℝ) * c + (-1 : ℝ) * c * r2 * r2 + (2 : ℝ) * c * r1 + (-1 : ℝ) * c * r1 * r1 + b * r2 * r3 + a * r1 * r3) * hl +
          ((-1 : ℝ) * r3 + (-1 : ℝ) * c * r3 + b * r2 + b * c * r2 + (-1 : ℝ) * b * b * r3 + (-2 : ℝ) * a + a * r1 + (-2 : ℝ) * a * c + a * c * r1 + (-1 : ℝ) * a * a * r3) * hrl
    · linarith
  · rw [Quat.normalize_scaled]
    · have hq : (⟨a * r2 - b * r1 - b, a - r3, r2 - (b * r3 - c * r2), 1 + c + (c * r1 - a * r3 + r1)⟩ : Quat).lengthSq ≠ 0 :=
        Quat.lengthSq_ne_zero_of_w (by dsimp only; linarith)
      rw [Mat3.zAxis_fromQuat_normalize _ hq]
      refine Vec3.ext_vec3 ?_ ?_ ?_ <;> simp only [Vec3.smul_vec3_def]
      · refine inv_lengthSq_helper _ _ _ hq ?_
        linear_combination
          ((2 : ℝ) * r3 + (2 : ℝ) * r1 * r3 + (-1 : ℝ) * a + (-1 : ℝ) * a * r3 * r3 + (-1 : ℝ) * a * r2 * r2 + (-2 : ℝ) * a * r1 + (-1 : ℝ) * a * r1 * r1) * hl +
          ((-2 : ℝ) + (-2 : ℝ) * r1 + (-2 : ℝ) * c + (-2 : ℝ) * c * r1 + a * c * r3 + a * b * r2 + (2 : ℝ) * a * a + a * a * r1) * hrl
      · refine inv_lengthSq_helper _ _ _ hq ?_
        linear_combination
          ((2 : ℝ) * r2 * r3 + (-1 : ℝ) * b + (-1 : ℝ) * b * r3 * r3 + (-1 : ℝ) * b * r2 * r2 + (-2 : ℝ) * b * r1 + (-1 : ℝ) * b * r1 * r1) * hl +
          ((-2 : ℝ) * r2 + (-2 : ℝ) * c * r2 + b * c * r3 + b * b * r2 + (2 : ℝ) * a * b + a * b * r1) * hrl
      · refine inv_lengthSq_helper _ _ _ hq ?_
        linear_combination
          ((-1 : ℝ) + r3 * r3 + (-1 : ℝ) * r2 * r2 + (-2 : ℝ) * r1 + (-1 : ℝ) * r1 * r1 + (-1 : ℝ) * c + (-1 : ℝ) * c * r2 * r2 + (-2 : ℝ) * c * r1 + (-1 : ℝ) * c * r1 * r1 + b * r2 * r3 + a * r1 * r3) * hl +
          ((-1 : ℝ) * r3 + (-1 : ℝ) * c * r3 + b * r2 + b * c * r2 + (-1 : ℝ) * b * b * r3 + (2 : ℝ) * a + a * r1 + (2 : ℝ) * a * c + a * c * r1 + (-1 : ℝ) * a * a * r3) * hrl
    · linarith

theorem Vec3.toVec4_xyz (v : Vec3) (w : ℝ) : (v.toVec4 w).xyz = v := rfl

theorem Vec3.dot_normalizeOrZero_eq_zero {v w : Vec3} (h : v.dot w = 0) :
    v.normalizeOrZero.dot w = 0 := by
  unfold Vec3.normalizeOrZero
  split_ifs with hp
  · rw [Vec3.dot_smul_left, h, mul_zero]
  · simp [Vec3.dot]

/-- The object-builder variant of the roundtrip, where the first two
columns are additionally re-normalized (`objects.rs` re-normalizes
`right` and the recomputed `up`; `camera.rs` does not). -/
theorem zAxis_roundtrip_lookMatrixN (u l : Vec3) (hl : l.lengthSq = 1) :
    (Mat3.fromQuat
        (Quat.fromMat3
          (Mat3.fromCols (u.cross l).normalizeOrZero
            ((l.cross (u.cross l).normalizeOrZero).normalizeOrZero)
            l)).normalize).zAxis = l := by
  by_cases hcz : u.cross l = 0
  · rw [hcz, Vec3.normalizeOrZero_zero]
    have hthis := zAxis_roundtrip_lookMatrix 0 l hl (by simp [Vec3.dot])
    simp only [Vec3.cross_zero, Vec3.normalizeOrZero_zero] at hthis ⊢
    exact hthis
  · have hr1 : (u.cross l).normalizeOrZero.lengthSq = 1 :=
      Vec3.lengthSq_normalizeOrZero hcz
    have hrl : (u.cross l).normalizeOrZero.dot l = 0 :=
      Vec3.dot_normalizeOrZero_eq_zero (Vec3.dot_cross_right u l)
    have hup2 : (l.cross (u.cross l).normalizeOrZero).normalizeOrZero =
        l.cross (u.cross l).normalizeOrZero := by
      apply Vec3.normalizeOrZero_of_lengthSq_one
      rw [Vec3.lengthSq_cross, hl, hr1]
      have hlr : l.dot (u.cross l).normalizeOrZero = 0 := by
        rw [Vec3.dot_comm]
        exact hrl
      rw [hlr]
      norm_num
    rw [hup2, zAxis_roundtrip_lookMatrix _ _ hl hrl]

/-- After `PerspectiveCameraBuilder::look_at_point(p)` with `p` distinct
from the builder's translation, the look basis (z axis of the stored
rotation) is exactly the normalized `translation - p`. -/
theorem PerspectiveCameraBuilder.lookBasis_lookAtPoint_cam
    (b : PerspectiveCameraBuilder) (p : Vec3) (h : b.translation ≠ p) :
    (b.lookAtPoint p).lookBasis = (b.translation - p).normalize := by
  have hsub : b.translation - p ≠ 0 := Vec3.sub_ne_zero h
  have hl : ((b.translation - p).normalizeOrZero).lengthSq = 1 :=
    Vec3.lengthSq_normalizeOrZero hsub
  simp only [PerspectiveCameraBuilder.lookAtPoint,
    PerspectiveCameraBuilder.lookBasis]
  rw [Quat.normalize_idem,
    zAxis_roundtrip_lookMatrix _ _ hl (Vec3.dot_cross_right _ _)]
  exact Vec3.normalizeOrZero_eq_normalize hsub

/-- After `ColordObjectBuilder::look_at_point(p)` with `p` distinct from
the builder's translation, the look basis (z axis of the stored rotation,
normalized as `build` does) is exactly the normalized `p - translation`:
the object looks *toward* the point. -/
theorem ColordObjectBuilder.lookBasis_lookAtPoint_obj
    (b : ColordObjectBuilder) (p : Vec3) (h : b.translation ≠ p) :
    (b.lookAtPoint p).lookBasis = (p - b.translation).normalize := by
  have hsub : p - b.translation ≠ 0 := Vec3.sub_ne_zero (Ne.symm h)
  have hl : ((p - b.translation).normalizeOrZero).lengthSq = 1 :=
    Vec3.lengthSq_normalizeOrZero hsub
  simp only [ColordObjectBuilder.lookAtPoint, ColordObjectBuilder.lookBasis]
  rw [zAxis_roundtrip_lookMatrixN _ _ hl]
  exact Vec3.normalizeOrZero_eq_normalize hsub

/-- C3: for every world entity — a `GameObject` via the trait default
method, the camera builder, and the colored-object builder — and every
point distinct from the entity's position, after `look_at_point(P)` the
entity's look-basis column (the z axis of its rotation/transform) is
parallel to `normalize(position - P)`.  Over the exact real model the
trait and the camera builder yield that vector itself (factor `1`), and
the colored-object builder — which looks toward the point — yields its
negation (factor `-1`). -/
theorem look_at_point_parallel
    (m : Mat4) (camB : PerspectiveCameraBuilder) (objB : ColordObjectBuilder)
    (p q s : Vec3)
    (hm : GameObject.getPosition m ≠ p)
    (hq : camB.translation ≠ q)
    (hs : objB.translation ≠ s) :
    Vec3.parallelWith (GameObject.lookAtPoint p m).zAxis.xyz
      ((GameObject.getPosition m - p).normalize) ∧
    Vec3.parallelWith (camB.lookAtPoint q).lookBasis
      ((camB.translation - q).normalize) ∧
    Vec3.parallelWith (objB.lookAtPoint s).lookBasis
      ((objB.translation - s).normalize) := by
  refine ⟨⟨1, one_ne_zero, ?_⟩, ⟨1, one_ne_zero, ?_⟩, ⟨-1, by norm_num, ?_⟩⟩
  · have hsub : m.wAxis.xyz - p ≠ 0 := Vec3.sub_ne_zero hm
    simp only [GameObject.lookAtPoint, GameObject.getPosition,
      Vec3.toVec4_xyz]
    rw [Vec3.normalizeOrZero_eq_normalize hsub]
    ext <;> simp
  · rw [PerspectiveCameraBuilder.lookBasis_lookAtPoint_cam camB q hq]
    ext <;> simp
  · rw [ColordObjectBuilder.lookBasis_lookAtPoint_obj objB s hs,
      Vec3.neg_sub_swap s objB.translation, Vec3.normalize_neg]
    ext <;> simp

/-- Witness for C3 at concrete inputs: the identity transform, a fresh
camera builder, and a fresh object builder, with look-at targets distinct
from their (zero) positions. -/
theorem look_at_point_parallel_witness :
    ((GameObject.getPosition Mat4.identity ≠ (⟨0, 0, -1⟩ : Vec3)) ∧
      ((PerspectiveCameraBuilder.new 1 1 1 2).translation ≠ (⟨0, 0, -1⟩ : Vec3)) ∧
      (ColordObjectBuilder.new.translation ≠ (⟨0, 1, 0⟩ : Vec3))) ∧
    (Vec3.parallelWith
        (GameObject.lookAtPoint (⟨0, 0, -1⟩ : Vec3) Mat4.identity).zAxis.xyz
        ((GameObject.getPosition Mat4.identity - ⟨0, 0, -1⟩).normalize) ∧
      Vec3.parallelWith
        ((PerspectiveCameraBuilder.new 1 1 1 2).lookAtPoint ⟨0, 0, -1⟩).lookBasis
        (((PerspectiveCameraBuilder.new 1 1 1 2).translation -
          ⟨0, 0, -1⟩).normalize) ∧
      Vec3.parallelWith
        (ColordObjectBuilder.new.lookAtPoint ⟨0, 1, 0⟩).lookBasis
        ((ColordObjectBuilder.new.translation - ⟨0, 1, 0⟩).normalize)) := by
  have h1 : GameObject.getPosition Mat4.identity ≠ (⟨0, 0, -1⟩ : Vec3) := by
    simp [GameObject.getPosition, Mat4.identity, Vec4.xyz]
  have h2 : (PerspectiveCameraBuilder.new 1 1 1 2).translation ≠
      (⟨0, 0, -1⟩ : Vec3) := by
    simp [PerspectiveCameraBuilder.new]
  have h3 : ColordObjectBuilder.new.translation ≠ (⟨0, 1, 0⟩ : Vec3) := by
    simp [ColordObjectBuilder.new]
  exact ⟨⟨h1, h2, h3⟩, look_at_point_parallel _ _ _ _ _ _ h1 h2 h3⟩

/-! ## C1 and C4: the transparent pipeline's blend and depth state -/

/-- C1: the transparent-accumulate pipeline has exactly two color targets:
target 0 is `Rgba16Float` with additive `(one, one)` blending on both the
color and the alpha component, and target 1 is `R8Unorm` with
`(zero, one-minus-source)` blending on both components; under the blend
semantics, target 1 therefore updates each revealage channel as
`reveal' = reveal * (1 - alpha)` for a fragment writing alpha as its
source value. -/
theorem transparent_pipeline_blend_spec :
    createTransparentPipeline.fragmentTargets =
      [ { format := .rgba16Float
          blend := some
            { color := ⟨.one, .one, .add⟩, alpha := ⟨.one, .one, .add⟩ }
          writeMaskAll := true }
      , { format := .r8Unorm
          blend := some
            { color := ⟨.zero, .oneMinusSrc, .add⟩
              alpha := ⟨.zero, .oneMinusSrc, .add⟩ }
          writeMaskAll := true } ] ∧
    (∀ alpha reveal : ℝ,
      BlendComponent.eval ⟨.zero, .oneMinusSrc, .add⟩ alpha reveal =
        reveal * (1 - alpha)) ∧
    (∀ src dst : ℝ,
      BlendComponent.eval ⟨.one, .one, .add⟩ src dst = src + dst) := by
  refine ⟨rfl, ?_, ?_⟩
  · intro alpha reveal
    simp [BlendComponent.eval, BlendFactor.eval]
    ring
  · intro src dst
    simp [BlendComponent.eval, BlendFactor.eval]

/-- C4: the transparent-accumulate pipeline uses depth compare `Less` with
depth writes disabled. -/
theorem transparent_pipeline_depth_spec :
    createTransparentPipeline.depthStencil.depthCompare = .less ∧
    createTransparentPipeline.depthStencil.depthWriteEnabled = false := by
  exact ⟨rfl, rfl⟩

/-! ## C2 and C5: the resize transition -/

/-- Counterexample to C2 as stated: at a concrete positive resize
(800 × 600) the emitted device-call trace recreates accum, reveal, the
accum/reveal bind group, and then the depth-stencil texture — so the last
of the four resource creations is the depth-stencil texture, not the bind
group.  The claim that the bind group is created last among those four is
false. -/
theorem resize_bindgroup_not_last :
    (handleResize 800 600
        ⟨(640, 480), (640, 480), (640, 480), (640, 480), (640, 480),
         (640, 480)⟩).2 =
      [ .pollAllWait
      , .configureSurface 800 600
      , .createTexture .accum 800 600
      , .createTexture .reveal 800 600
      , .createOitBindGroup (800, 600) (800, 600)
      , .createTexture .depthStencil 800 600 ] ∧
    ((handleResize 800 600
        ⟨(640, 480), (640, 480), (640, 480), (640, 480), (640, 480),
         (640, 480)⟩).2.filter DeviceAction.isResourceCreation).getLast? ≠
      some (.createOitBindGroup (800, 600) (800, 600)) := by
  constructor
  · rfl
  · decide

/-- C2 (amended): for every resize with strictly positive dimensions the
transition performs, in this order: a full device synchronization, then
the surface reconfiguration to the new size, then recreation of the accum
texture, the reveal texture, the accum/reveal bind group (after the two
textures it references), and finally the depth-stencil texture.  The bind
group is created after both textures it borrows views of, but the
depth-stencil texture — not the bind group — is the last of the four
resources recreated. -/
theorem resize_transition_order (st : RenderResources) (w h : ℕ)
    (hw : 0 < w) (hh : 0 < h) :
    handleResize w h st =
      (⟨(w, h), (w, h), (w, h), (w, h), (w, h), (w, h)⟩,
       [ .pollAllWait
       , .configureSurface w h
       , .createTexture .accum w h
       , .createTexture .reveal w h
       , .createOitBindGroup (w, h) (w, h)
       , .createTexture .depthStencil w h ]) := by
  unfold handleResize
  rw [if_pos ⟨hw, hh⟩]

/-- Witness for the amended C2 at the concrete resize 800 × 600. -/
theorem resize_transition_order_witness :
    (0 < 800 ∧ 0 < 600) ∧
    handleResize 800 600
        ⟨(640, 480), (640, 480), (640, 480), (640, 480), (640, 480),
         (640, 480)⟩ =
      (⟨(800, 600), (800, 600), (800, 600), (800, 600), (800, 600),
        (800, 600)⟩,
       [ .pollAllWait
       , .configureSurface 800 600
       , .createTexture .accum 800 600
       , .createTexture .reveal 800 600
       , .createOitBindGroup (800, 600) (800, 600)
       , .createTexture .depthStencil 800 600 ]) :=
  ⟨⟨by decide, by decide⟩,
    resize_transition_order _ 800 600 (by decide) (by decide)⟩

/-- C5: a resize event with a zero width or height performs no resource
transition at all: the resource state is returned unchanged and no device
call is made. -/
theorem zero_resize_ignored (st : RenderResources) (w h : ℕ)
    (hz : w = 0 ∨ h = 0) :
    handleResize w h st = (st, []) := by
  unfold handleResize
  rw [if_neg]
  rintro ⟨hw, hh⟩
  rcases hz with h0 | h0 <;> omega

/-- Witness for C5 at a concrete degenerate resize (width 0). -/
theorem zero_resize_ignored_witness :
    ((0 : ℕ) = 0 ∨ (600 : ℕ) = 0) ∧
    handleResize 0 600
        ⟨(640, 480), (640, 480), (640, 480), (640, 480), (640, 480),
         (640, 480)⟩ =
      (⟨(640, 480), (640, 480), (640, 480), (640, 480), (640, 480),
        (640, 480)⟩, []) :=
  ⟨Or.inl rfl, zero_resize_ignored _ 0 600 (Or.inl rfl)⟩

/-! ## Orthonormality of quaternion rotation matrices -/

theorem Vec3.lengthSq_eq_dot (v : Vec3) : v.lengthSq = v.dot v := rfl

theorem Vec3.lengthSq_smul (t : ℝ) (v : Vec3) :
    (t • v).lengthSq = t * t * v.lengthSq := by
  unfold Vec3.lengthSq
  simp only [Vec3.smul_vec3_def]
  ring

/-- The rotation matrix of a unit quaternion has orthonormal columns. -/
theorem Mat3.fromQuat_orthonormal (q : Quat) (h : q.lengthSq = 1) :
    (Mat3.fromQuat q).xAxis.dot (Mat3.fromQuat q).xAxis = 1 ∧
    (Mat3.fromQuat q).yAxis.dot (Mat3.fromQuat q).yAxis = 1 ∧
    (Mat3.fromQuat q).zAxis.dot (Mat3.fromQuat q).zAxis = 1 ∧
    (Mat3.fromQuat q).xAxis.dot (Mat3.fromQuat q).yAxis = 0 ∧
    (Mat3.fromQuat q).xAxis.dot (Mat3.fromQuat q).zAxis = 0 ∧
    (Mat3.fromQuat q).yAxis.dot (Mat3.fromQuat q).zAxis = 0 := by
  have h2 : q.x * q.x + q.y * q.y + q.z * q.z + q.w * q.w = 1 := h
  unfold Mat3.fromQuat Vec3.dot
  refine ⟨?_, ?_, ?_, ?_, ?_, ?_⟩
  · linear_combination ((4 : ℝ) * q.z * q.z + (4 : ℝ) * q.y * q.y) * h2
  · linear_combination ((4 : ℝ) * q.z * q.z + (4 : ℝ) * q.x * q.x) * h2
  · linear_combination ((4 : ℝ) * q.y * q.y + (4 : ℝ) * q.x * q.x) * h2
  · linear_combination ((-4 : ℝ) * q.x * q.y) * h2
  · linear_combination ((-4 : ℝ) * q.x * q.z) * h2
  · linear_combination ((-4 : ℝ) * q.y * q.z) * h2

/-- The rotation matrix of a re-normalized quaternion has orthonormal
columns — for every quaternion, including zero (whose normalization is
the zero quaternion over `ℝ`, and `from_quat` of that is the identity). -/
theorem Mat3.fromQuat_normalize_orthonormal (q : Quat) :
    (Mat3.fromQuat q.normalize).xAxis.dot (Mat3.fromQuat q.normalize).xAxis = 1 ∧
    (Mat3.fromQuat q.normalize).yAxis.dot (Mat3.fromQuat q.normalize).yAxis = 1 ∧
    (Mat3.fromQuat q.normalize).zAxis.dot (Mat3.fromQuat q.normalize).zAxis = 1 ∧
    (Mat3.fromQuat q.normalize).xAxis.dot (Mat3.fromQuat q.normalize).yAxis = 0 ∧
    (Mat3.fromQuat q.normalize).xAxis.dot (Mat3.fromQuat q.normalize).zAxis = 0 ∧
    (Mat3.fromQuat q.normalize).yAxis.dot (Mat3.fromQuat q.normalize).zAxis = 0 := by
  by_cases h : q.lengthSq = 0
  · have hq := Quat.lengthSq_eq_zero_iff_quat.mp h
    rw [hq, Quat.normalize_zero]
    unfold Mat3.fromQuat Vec3.dot
    norm_num
  · exact Mat3.fromQuat_orthonormal _ (Quat.lengthSq_normalize h)

/-- The 3-component part of applying `Mat4::from_quat(q)` to a `Vec4` is
the linear combination of the 3×3 rotation columns (the translation
column of `from_quat` is zero). -/
theorem xyz_mulVec4_fromQuat (q : Quat) (v : Vec4) :
    ((Mat4.fromQuat q).mulVec4 v).xyz =
      v.xyz.x • (Mat3.fromQuat q).xAxis + v.xyz.y • (Mat3.fromQuat q).yAxis +
        v.xyz.z • (Mat3.fromQuat q).zAxis := by
  unfold Mat4.mulVec4 Mat4.fromQuat Vec4.xyz Vec3.toVec4
  ext <;> simp <;> ring

/-- A linear combination of orthonormal columns preserves dot products. -/
theorem dot3_lincomb (ax ay az u v : Vec3)
    (hxx : ax.dot ax = 1) (hyy : ay.dot ay = 1) (hzz : az.dot az = 1)
    (hxy : ax.dot ay = 0) (hxz : ax.dot az = 0) (hyz : ay.dot az = 0) :
    (u.x • ax + u.y • ay + u.z • az).dot (v.x • ax + v.y • ay + v.z • az) =
      u.dot v := by
  unfold Vec3.dot at hxx hyy hzz hxy hxz hyz ⊢
  simp only [Vec3.smul_vec3_def, Vec3.add_vec3_def]
  linear_combination (u.x * v.x) * hxx + (u.y * v.y) * hyy +
    (u.z * v.z) * hzz + (u.x * v.y + u.y * v.x) * hxy +
    (u.x * v.z + u.z * v.x) * hxz + (u.y * v.z + u.z * v.y) * hyz

/-- `GameObject::rotate` preserves orthonormality of the 3×3 block. -/
theorem orthonormal3_rotate (q : Quat) (m : Mat4) (hm : m.orthonormal3) :
    (GameObject.rotate q m).orthonormal3 := by
  obtain ⟨rxx, ryy, rzz, rxy, rxz, ryz⟩ := Mat3.fromQuat_normalize_orthonormal q
  obtain ⟨hxx, hyy, hzz, hxy, hxz, hyz⟩ := hm
  unfold GameObject.rotate Mat4.mul Mat4.orthonormal3
  simp only [xyz_mulVec4_fromQuat]
  refine ⟨?_, ?_, ?_, ?_, ?_, ?_⟩ <;>
    rw [dot3_lincomb _ _ _ _ _ rxx ryy rzz rxy rxz ryz]
  · exact hxx
  · exact hyy
  · exact hzz
  · exact hxy
  · exact hxz
  · exact hyz

/-- C6: for every world entity and every finite sequence of trait
mutations (`rotate`, `translate_local`, `translate_world`), if the
upper-left 3×3 block of the world transform is orthonormal before the
sequence, it is orthonormal after it — exactly, over the real model.
Rotations multiply by the rotation matrix of a re-normalized quaternion
(orthonormal for every argument), and translations only touch the
translation column. -/
theorem worldentity_orthonormal_invariant (ops : List WorldOp) (m : Mat4)
    (hm : m.orthonormal3) : (applyOps ops m).orthonormal3 := by
  induction ops generalizing m with
  | nil => exact hm
  | cons op rest ih =>
    have hstep : (applyOp op m).orthonormal3 := by
      cases op with
      | rotate q => exact orthonormal3_rotate q m hm
      | translateLocal d => exact hm
      | translateWorld d => exact hm
    exact ih _ hstep

/-- Witness for C6: the identity transform and a concrete
rotate-then-translate sequence. -/
theorem worldentity_orthonormal_invariant_witness :
    Mat4.identity.orthonormal3 ∧
    (applyOps [.rotate ⟨1, 2, 3, 4⟩, .translateWorld ⟨5, 6, 7⟩]
        Mat4.identity).orthonormal3 := by
  have hid : Mat4.identity.orthonormal3 := by
    unfold Mat4.orthonormal3 Mat4.identity Vec4.xyz Vec3.dot
    norm_num
  exact ⟨hid,
    worldentity_orthonormal_invariant
      [.rotate ⟨1, 2, 3, 4⟩, .translateWorld ⟨5, 6, 7⟩] Mat4.identity hid⟩

/-! ## C7: scale is baked at build time and persists under mutation -/

theorem Quat.normalize_identity : Quat.identity.normalize = Quat.identity := by
  apply Quat.normalize_of_lengthSq_one
  unfold Quat.lengthSq Quat.identity
  norm_num

theorem Mat4.fromQuat_identity : Mat4.fromQuat Quat.identity = Mat4.identity := by
  unfold Mat4.fromQuat Mat3.fromQuat Quat.identity Mat4.identity Vec3.toVec4
  ext <;> norm_num

theorem Mat4.identity_mul (m : Mat4) : Mat4.identity.mul m = m := by
  unfold Mat4.mul Mat4.mulVec4 Mat4.identity
  ext <;> simp

/-- Any transform of the shape `from_rotation_translation(q.normalize(), t)`
has a unit first basis column. -/
theorem fromRotationTranslation_xAxis_unit (q : Quat) (t : Vec3) :
    (Mat4.fromRotationTranslation q.normalize t).xAxis.xyz.lengthSq = 1 := by
  obtain ⟨rxx, -, -, -, -, -⟩ := Mat3.fromQuat_normalize_orthonormal q
  unfold Mat4.fromRotationTranslation
  rw [Vec3.toVec4_xyz, Vec3.lengthSq_eq_dot]
  exact rxx

/-- Counterexample to C7 as stated: build a colored object with scale
`(2,2,2)` and apply the post-build mutation `rotate(identity)`.  The
resulting world transform is *not* re-derivable from a rotation and a
translation alone — its first basis column has squared length 4, while
any `from_rotation_translation(rotation.normalize(), translation)` matrix
has unit basis columns.  The scale is still present in the transform
after the mutation. -/
theorem scale_not_rederived_counterexample :
    ¬ ∃ (r : Quat) (t : Vec3),
      GameObject.rotate Quat.identity
          ((ColordObjectBuilder.new.setScale ⟨2, 2, 2⟩).buildTransform) =
        Mat4.fromRotationTranslation r.normalize t := by
  rintro ⟨r, t, heq⟩
  have hx : (GameObject.rotate Quat.identity
      ((ColordObjectBuilder.new.setScale
        ⟨2, 2, 2⟩).buildTransform)).xAxis.xyz.lengthSq = 4 := by
    unfold GameObject.rotate
    rw [Quat.normalize_identity, Mat4.fromQuat_identity, Mat4.identity_mul]
    simp only [ColordObjectBuilder.new, ColordObjectBuilder.setScale,
      ColordObjectBuilder.buildTransform]
    rw [Quat.normalize_identity]
    simp only [Mat4.fromScaleRotationTranslation, Mat3.fromQuat, Quat.identity,
      Vec3.toVec4, Vec4.xyz, Vec3.lengthSq, Vec3.smul_vec3_def]
    norm_num
  rw [heq, fromRotationTranslation_xAxis_unit] at hx
  norm_num at hx

theorem applyOp_norms (op : WorldOp) (m : Mat4) :
    ((applyOp op m).xAxis.xyz.lengthSq = m.xAxis.xyz.lengthSq) ∧
    ((applyOp op m).yAxis.xyz.lengthSq = m.yAxis.xyz.lengthSq) ∧
    ((applyOp op m).zAxis.xyz.lengthSq = m.zAxis.xyz.lengthSq) := by
  cases op with
  | rotate q =>
    obtain ⟨rxx, ryy, rzz, rxy, rxz, ryz⟩ := Mat3.fromQuat_normalize_orthonormal q
    simp only [applyOp]
    unfold GameObject.rotate Mat4.mul
    refine ⟨?_, ?_, ?_⟩ <;> simp only [xyz_mulVec4_fromQuat] <;>
      rw [Vec3.lengthSq_eq_dot,
        dot3_lincomb _ _ _ _ _ rxx ryy rzz rxy rxz ryz, ← Vec3.lengthSq_eq_dot]
  | translateLocal d => exact ⟨rfl, rfl, rfl⟩
  | translateWorld d => exact ⟨rfl, rfl, rfl⟩

theorem applyOps_norms (ops : List WorldOp) (m : Mat4) :
    ((applyOps ops m).xAxis.xyz.lengthSq = m.xAxis.xyz.lengthSq) ∧
    ((applyOps ops m).yAxis.xyz.lengthSq = m.yAxis.xyz.lengthSq) ∧
    ((applyOps ops m).zAxis.xyz.lengthSq = m.zAxis.xyz.lengthSq) := by
  induction ops generalizing m with
  | nil => exact ⟨rfl, rfl, rfl⟩
  | cons op rest ih =>
    obtain ⟨h1, h2, h3⟩ := applyOp_norms op m
    obtain ⟨g1, g2, g3⟩ := ih (applyOp op m)
    exact ⟨g1.trans h1, g2.trans h2, g3.trans h3⟩

/-- C7 (amended): the scale passed to the builder is baked into the basis
columns of the transform once, at build time, and every post-build trait
mutation (`rotate`, `translate_local`, `translate_world`) *preserves* it:
after any sequence of mutations the squared lengths of the three basis
columns are still exactly `scale.x²`, `scale.y²`, `scale.z²`.  Scale is
frozen at construction — never re-applied, never removed, and (being
baked into the matrix) not independently retrievable. -/
theorem scale_frozen_column_norms (b : ColordObjectBuilder) (ops : List WorldOp) :
    ((applyOps ops b.buildTransform).xAxis.xyz.lengthSq =
      b.scale.x * b.scale.x) ∧
    ((applyOps ops b.buildTransform).yAxis.xyz.lengthSq =
      b.scale.y * b.scale.y) ∧
    ((applyOps ops b.buildTransform).zAxis.xyz.lengthSq =
      b.scale.z * b.scale.z) := by
  obtain ⟨h1, h2, h3⟩ := applyOps_norms ops b.buildTransform
  obtain ⟨rxx, ryy, rzz, -, -, -⟩ :=
    Mat3.fromQuat_normalize_orthonormal b.rotation
  refine ⟨h1.trans ?_, h2.trans ?_, h3.trans ?_⟩ <;>
    unfold ColordObjectBuilder.buildTransform Mat4.fromScaleRotationTranslation
  · rw [Vec3.toVec4_xyz, Vec3.lengthSq_smul, Vec3.lengthSq_eq_dot, rxx, mul_one]
  · rw [Vec3.toVec4_xyz, Vec3.lengthSq_smul, Vec3.lengthSq_eq_dot, ryy, mul_one]
  · rw [Vec3.toVec4_xyz, Vec3.lengthSq_smul, Vec3.lengthSq_eq_dot, rzz, mul_one]

/-! ## C8: the camera view matrix inverts the world transform -/

/-- C8: for every camera world transform that is affine and has an
orthonormal upper-left 3×3 block (the shape every built, trait-mutated
camera transform has), the matrix returned by `get_camera_transform`
multiplied with the world transform is exactly the identity: the view
matrix is the inverse of the world transform. -/
theorem camera_transform_inverse (m : Mat4) (h3 : m.orthonormal3)
    (ha : m.affine) : (getCameraTransform m).mul m = Mat4.identity := by
  obtain ⟨hxx, hyy, hzz, hxy, hxz, hyz⟩ := h3
  obtain ⟨hwx, hwy, hwz, hww⟩ := ha
  have hnx : m.xAxis.xyz.normalizeOrZero = m.xAxis.xyz :=
    Vec3.normalizeOrZero_of_lengthSq_one (by rw [Vec3.lengthSq_eq_dot]; exact hxx)
  have hny : m.yAxis.xyz.normalizeOrZero = m.yAxis.xyz :=
    Vec3.normalizeOrZero_of_lengthSq_one (by rw [Vec3.lengthSq_eq_dot]; exact hyy)
  have hnz : m.zAxis.xyz.normalizeOrZero = m.zAxis.xyz :=
    Vec3.normalizeOrZero_of_lengthSq_one (by rw [Vec3.lengthSq_eq_dot]; exact hzz)
  unfold getCameraTransform mat4
  rw [hnx, hny, hnz]
  unfold Vec3.dot at hxx hyy hzz hxy hxz hyz
  simp only [Vec4.xyz] at hxx hyy hzz hxy hxz hyz ⊢
  unfold Mat4.mul Mat4.mulVec4 Mat4.identity Vec3.dot
  rw [hwx, hwy, hwz, hww]
  refine Mat4.ext_mat4 ?_ ?_ ?_ ?_ <;> refine Vec4.ext_vec4 ?_ ?_ ?_ ?_ <;>
    simp only [Vec4.smul_vec4_def, Vec4.add_vec4_def, Vec4.xyz] <;>
    first
      | ring1
      | linear_combination hxx
      | linear_combination hyy
      | linear_combination hzz
      | linear_combination hxy
      | linear_combination hxz
      | linear_combination hyz

/-- Witness for C8 at the identity world transform. -/
theorem camera_transform_inverse_witness :
    (Mat4.identity.orthonormal3 ∧ Mat4.identity.affine) ∧
    (getCameraTransform Mat4.identity).mul Mat4.identity = Mat4.identity := by
  have h3 : Mat4.identity.orthonormal3 := by
    unfold Mat4.orthonormal3 Mat4.identity Vec4.xyz Vec3.dot
    norm_num
  have ha : Mat4.identity.affine := by
    unfold Mat4.affine Mat4.identity
    norm_num
  exact ⟨⟨h3, ha⟩, camera_transform_inverse Mat4.identity h3 ha⟩

/-! ## C9: left-key then right-key rotation restores the camera -/

/-- Composing the rotation matrices of the unit quaternions for rotation
about y by `−θ` then `+θ` yields the identity. -/
theorem rotY_mul_rotY_neg (s c : ℝ) (h : s ^ 2 + c ^ 2 = 1) :
    (Mat4.fromQuat ⟨0, s, 0, c⟩).mul (Mat4.fromQuat ⟨0, -s, 0, c⟩) =
      Mat4.identity := by
  unfold Mat4.fromQuat Mat3.fromQuat Mat4.mul Mat4.mulVec4 Vec3.toVec4
    Mat4.identity
  refine Mat4.ext_mat4 ?_ ?_ ?_ ?_ <;> refine Vec4.ext_vec4 ?_ ?_ ?_ ?_ <;>
    simp only [Vec4.smul_vec4_def, Vec4.add_vec4_def] <;>
    first
      | ring1
      | linear_combination (4 * s ^ 2) * h
      | linear_combination (-4 * s ^ 2) * h

theorem Mat4.mul_assoc (a b c : Mat4) : (a.mul b).mul c = a.mul (b.mul c) := by
  unfold Mat4.mul Mat4.mulVec4
  ext <;> simp <;> ring

/-- Rotating by `from_rotation_y (−θ)` and then `from_rotation_y θ`
restores the world transform exactly. -/
theorem rotate_y_roundtrip (m : Mat4) (θ : ℝ) :
    GameObject.rotate (Quat.fromRotationY θ)
      (GameObject.rotate (Quat.fromRotationY (-θ)) m) = m := by
  have hq1 : Quat.fromRotationY (-θ) =
      ⟨0, -Real.sin (θ * (1 / 2)), 0, Real.cos (θ * (1 / 2))⟩ := by
    unfold Quat.fromRotationY
    rw [neg_mul, Real.sin_neg, Real.cos_neg]
  have hq2 : Quat.fromRotationY θ =
      ⟨0, Real.sin (θ * (1 / 2)), 0, Real.cos (θ * (1 / 2))⟩ := rfl
  have hsc : Real.sin (θ * (1 / 2)) ^ 2 + Real.cos (θ * (1 / 2)) ^ 2 = 1 :=
    Real.sin_sq_add_cos_sq _
  have hu1 : (⟨0, -Real.sin (θ * (1 / 2)), 0,
      Real.cos (θ * (1 / 2))⟩ : Quat).lengthSq = 1 := by
    unfold Quat.lengthSq
    linear_combination hsc
  have hu2 : (⟨0, Real.sin (θ * (1 / 2)), 0,
      Real.cos (θ * (1 / 2))⟩ : Quat).lengthSq = 1 := by
    unfold Quat.lengthSq
    linear_combination hsc
  unfold GameObject.rotate
  rw [hq1, hq2, Quat.normalize_of_lengthSq_one hu1,
    Quat.normalize_of_lengthSq_one hu2, ← Mat4.mul_assoc,
    rotY_mul_rotY_neg _ _ hsc, Mat4.identity_mul]

/-- C9: for every camera world transform, every angular rate and every
elapsed time, the left-key rotation (about the vertical axis by
`−rate·Δt`) followed by the right-key rotation (by `+rate·Δt`) restores
the world transform exactly; in particular this holds for the 180°/s
`ArrowLeft` / `ArrowRight` handlers of the render loop. -/
theorem camera_rotate_roundtrip (m : Mat4) (rate dt : ℝ) :
    GameObject.rotate (Quat.fromRotationY (rate * dt))
      (GameObject.rotate (Quat.fromRotationY (-(rate * dt))) m) = m ∧
    rotateRightKey dt (rotateLeftKey dt m) = m := by
  constructor
  · exact rotate_y_roundtrip m (rate * dt)
  · unfold rotateRightKey rotateLeftKey
    rw [show -Real.pi * dt = -(Real.pi * dt) from by ring]
    exact rotate_y_roundtrip m (Real.pi * dt)

/-! ## C10: world translation touches only the translation column -/

/-- C10: `translate_world` (and `set_position`, through which it is
implemented) changes only the translation column `w_axis` of the world
transform: the three basis columns are returned exactly unchanged (the
same values, bit-for-bit in the code, definitional equality here), and
the new position is the old position plus the distance (resp. the given
position). -/
theorem translate_world_basis_unchanged (m : Mat4) (d p : Vec3) :
    ((GameObject.translateWorld d m).xAxis = m.xAxis ∧
      (GameObject.translateWorld d m).yAxis = m.yAxis ∧
      (GameObject.translateWorld d m).zAxis = m.zAxis ∧
      GameObject.getPosition (GameObject.translateWorld d m) =
        GameObject.getPosition m + d) ∧
    ((GameObject.setPosition p m).xAxis = m.xAxis ∧
      (GameObject.setPosition p m).yAxis = m.yAxis ∧
      (GameObject.setPosition p m).zAxis = m.zAxis ∧
      GameObject.getPosition (GameObject.setPosition p m) = p) :=
  ⟨⟨rfl, rfl, rfl, rfl⟩, ⟨rfl, rfl, rfl, rfl⟩⟩

end OIT

end
